import Mathlib

/-!
# lang_bot: a dictionary lookup relay

A shallow embedding of `main.go`: the decoded `WordInfo` data model, the reply
formatter `formatMessage`, the dictionary client `getWordInfo` over an abstract
transport and JSON decoder, and the message loop of `main` as a function that
threads the state of the outside world and records what it does in a trace.
Strings are sequences of Unicode characters, as the texts decoded from JSON are; the
bytes of a string matter only to `url.QueryEscape`. Writing to the log is not part of
the trace.
-/

namespace LangBot

set_option linter.dupNamespace false

/-! ## Data model (`type WordInfo`) -/

/-- An element of `Antonyms []interface{}`: a decoded JSON value that the program never reads. -/
inductive Any where
  | null : Any
  | bool : Bool → Any
  | number : String → Any
  | string : String → Any
  | array : List Any → Any
  | object : List (String × Any) → Any

/-- The innermost anonymous struct of `WordInfo`: one definition of a meaning.
`Example` is a Go `string`, so a JSON object without the key decodes to `""`. -/
structure Definition where
  Definition : String
  Example : String
  Synonyms : List String
  Antonyms : List Any

/-- The anonymous struct of `Meanings`: a part of speech and its definitions. -/
structure Meaning where
  PartOfSpeech : String
  Definitions : List Definition

/-- One element of `WordInfo`: a headword, its (empty-struct) phonetics and its meanings. -/
structure WordEntry where
  Word : String
  Phonetics : List Unit
  Meanings : List Meaning

/-- The Go type `WordInfo`, a slice of entries. -/
abbrev WordInfo := List WordEntry

/-! ## Reply formatter -/

/-- The function `formatMessage`: three nested `range` loops that append to `wordParams`. -/
def formatMessage (receivedWord : WordInfo) : String :=
  receivedWord.foldl (fun wordParams value =>
    value.Meanings.foldl (fun wordParams meaning =>
      let wordParams := wordParams ++ ("Part of speech: " ++ meaning.PartOfSpeech ++ "\n")
      meaning.Definitions.foldl (fun wordParams d =>
        let wordParams := wordParams ++ ("Definition: " ++ d.Definition ++ "\n")
        wordParams ++ ("Example: " ++ d.Example ++ "\n")) wordParams) wordParams) ""

/-! ### The rendering rule as the specification words it -/

/-- The text of one definition: its `Definition:` line followed by its `Example:` line. -/
def renderDefinition (d : Definition) : String :=
  "Definition: " ++ d.Definition ++ "\n" ++ ("Example: " ++ d.Example ++ "\n")

/-- The text of one meaning: its `Part of speech:` line, then every definition in order. -/
def renderMeaning (m : Meaning) : String :=
  "Part of speech: " ++ m.PartOfSpeech ++ "\n" ++ String.join (m.Definitions.map renderDefinition)

/-- The text of one entry: every meaning in order. -/
def renderEntry (e : WordEntry) : String :=
  String.join (e.Meanings.map renderMeaning)

/-- The rendered reply of the specification: every entry in order. -/
def renderedReply (w : WordInfo) : String :=
  String.join (w.map renderEntry)

/-- Scenario A: one entry, one meaning, one definition with an example. -/
def scenarioA : WordInfo :=
  [{ Word := "hello", Phonetics := [],
     Meanings := [{ PartOfSpeech := "exclamation",
                    Definitions := [{ Definition := "used as a greeting",
                                      Example := "hello there!",
                                      Synonyms := [], Antonyms := [] }] }] }]

/-! ## Splitting a reply into lines -/

/-- Cuts a text at every newline; `cur` is the line being read. A last line that no
newline terminates is kept when it is not empty. -/
def splitLinesAux (cur : List Char) : List Char → List (List Char)
  | [] => if cur.isEmpty then [] else [cur]
  | c :: cs => if c = '\n' then cur :: splitLinesAux [] cs else splitLinesAux (cur ++ [c]) cs

/-- The newline-terminated lines of a text, without their newline. -/
def splitLines (s : String) : List String :=
  (splitLinesAux [] s.data).map String.mk

/-- Whether the text `s` begins with `p`. -/
def beginsWith (p s : String) : Bool :=
  p.data.isPrefixOf s.data

/-- The number of lines of `s` that begin with `p`. -/
def countLines (p s : String) : Nat :=
  (splitLines s).countP (beginsWith p)

/-- The total number of meanings of a decoded sequence. -/
def totalMeanings (w : WordInfo) : Nat :=
  (w.map fun e => e.Meanings.length).sum

/-- The total number of definitions of a decoded sequence. -/
def totalDefinitions (w : WordInfo) : Nat :=
  (w.map fun e => (e.Meanings.map fun m => m.Definitions.length).sum).sum

/-- The two lines of a definition. -/
def definitionLines (d : Definition) : List String :=
  ["Definition: " ++ d.Definition, "Example: " ++ d.Example]

/-- The lines of a meaning: its part of speech, then the line pair of every definition. -/
def meaningLines (m : Meaning) : List String :=
  ("Part of speech: " ++ m.PartOfSpeech) :: m.Definitions.flatMap definitionLines

/-- The lines a decoded sequence is expected to render to, in input order. -/
def expectedLines (w : WordInfo) : List String :=
  w.flatMap fun e => e.Meanings.flatMap meaningLines

/-- The text whose lines are `ls`, each followed by a newline. -/
def unlines (ls : List String) : String :=
  String.join (ls.map fun l => l ++ "\n")

/-- A text without a newline character. -/
def NoNewline (s : String) : Prop :=
  '\n' ∉ s.data

instance (s : String) : Decidable (NoNewline s) :=
  inferInstanceAs (Decidable ('\n' ∉ s.data))

/-- A decoded sequence none of whose rendered fields holds a newline character. -/
def LineFree (w : WordInfo) : Prop :=
  ∀ e ∈ w, ∀ m ∈ e.Meanings, NoNewline m.PartOfSpeech ∧
    ∀ d ∈ m.Definitions, NoNewline d.Definition ∧ NoNewline d.Example

instance (w : WordInfo) : Decidable (LineFree w) := by
  unfold LineFree
  infer_instance

/-- A decoded sequence with one definition whose text holds a newline. -/
def newlineWord : WordInfo :=
  [{ Word := "w", Phonetics := [],
     Meanings := [{ PartOfSpeech := "noun",
                    Definitions := [{ Definition := "a\nDefinition: b", Example := "",
                                      Synonyms := [], Antonyms := [] }] }] }]

/-- A decoded sequence with one meaning that has no definition. -/
def bareMeaningWord : WordInfo :=
  [{ Word := "w", Phonetics := [],
     Meanings := [{ PartOfSpeech := "noun", Definitions := [] }] }]

/-! ## The lookup URL (`dictionaryAPIPrefix + url.QueryEscape(word)`) -/

/-- The constant `dictionaryAPIPrefix`. -/
def dictionaryAPIPrefix : String :=
  "https://api.dictionaryapi.dev/api/v2/entries/en/"

/-- The UTF-8 bytes of the code point `v`: a Go string is the byte sequence of its text. -/
def utf8EncodeChar (v : Nat) : List Nat :=
  if v < 0x80 then [v]
  else if v < 0x800 then [0xC0 + v / 64, 0x80 + v % 64]
  else if v < 0x10000 then [0xE0 + v / 4096, 0x80 + v / 64 % 64, 0x80 + v % 64]
  else [0xF0 + v / 262144, 0x80 + v / 4096 % 64, 0x80 + v / 64 % 64, 0x80 + v % 64]

/-- The bytes of a Go string. -/
def bytesOf (s : String) : List Nat :=
  s.data.flatMap fun c => utf8EncodeChar c.toNat

/-- Go's `shouldEscape(c, encodeQueryComponent)` of package `net/url`: only ASCII letters,
digits and `-`, `_`, `.`, `~` are left alone. -/
def shouldEscape (c : Nat) : Bool :=
  if (97 ≤ c ∧ c ≤ 122) ∨ (65 ≤ c ∧ c ≤ 90) ∨ (48 ≤ c ∧ c ≤ 57) then false
  else if c = 45 ∨ c = 95 ∨ c = 46 ∨ c = 126 then false
  else true

/-- Go's `upperhex` table, indexed by a nibble. -/
def upperhex (n : Nat) : Char :=
  "0123456789ABCDEF".data.getD n '0'

/-- What `escape(s, encodeQueryComponent)` writes for one byte: `+` for a space, `%XX`
for a byte to escape, the byte itself otherwise. -/
def escapeByte (c : Nat) : List Char :=
  if c = 32 then ['+']
  else if shouldEscape c then ['%', upperhex (c / 16), upperhex (c % 16)]
  else [Char.ofNat c]

/-- Go's `url.QueryEscape`. -/
def QueryEscape (s : String) : String :=
  String.mk ((bytesOf s).flatMap escapeByte)

/-- The URL that `getWordInfo` passes to `requestWord`. -/
def wordURL (word : String) : String :=
  dictionaryAPIPrefix ++ QueryEscape word

/-! ## The outside world -/

/-- The part of `*http.Response` that `getWordInfo` reads: the status code, and what
`ioutil.ReadAll(response.Body)` gives, the bytes of the body or a read error. -/
structure Response where
  StatusCode : Int
  Body : Except String (List Nat)

/-- The collaborators of the program over a world state `σ`. A Go `error` is an
`Option String`, `none` being `nil`. -/
structure World (σ : Type) where
  /-- The call `tgbotapi.NewBotAPI(token)`: the error it returns. -/
  newBotAPI : σ → String → Option String × σ
  /-- The body of `requestWord`: build the GET request, set `Accept`, execute it. -/
  transport : σ → String → Except String Response × σ
  /-- The call `json.Unmarshal(data, &wordInfo)`. -/
  decode : List Nat → Except String WordInfo
  /-- The call `bot.Send(tgbotapi.NewMessage(chatID, text))`: the error it returns. -/
  send : σ → Int → String → Option String × σ

/-- The field of `tgbotapi.Chat` that the program reads. -/
structure Chat where
  ID : Int

/-- The fields of `tgbotapi.Message` that the program reads; Telegram sends a chat with
every message. -/
structure Message where
  Chat : Chat
  Text : String

/-- An update of `tgbotapi`: `Message` is a pointer, `nil` for an update that is not a
new message (an edited message, a channel post, a callback query). -/
structure Update where
  UpdateID : Int
  Message : Option Message

/-- The update that delivers the message `m`. -/
def Update.ofMessage (m : LangBot.Message) : Update :=
  { UpdateID := 0, Message := some m }

/-- What the program does to the outside world, in order. -/
inductive Event where
  /-- The call `tgbotapi.NewBotAPI(token)` and the error it returned. -/
  | auth (token : String) (err : Option String)
  /-- The call `bot.GetUpdatesChan(config)`. -/
  | getUpdates
  /-- The call `getWordInfo(word)`, with its HTTP request, and what it returned. -/
  | lookup (word : String) (result : Except String WordInfo)
  /-- The call `bot.Send` of a reply and the error it returned. -/
  | send (chatID : Int) (text : String) (err : Option String)

/-- How the message loop ends. -/
inductive Outcome where
  /-- The update channel was closed: the `range` loop ran to its end. -/
  | feedClosed
  /-- A `bot.Send` failed and `main` returned. -/
  | sendFailed
  /-- The update had a `nil` message and `update.Message.Text` panicked. -/
  | nilDereference
  deriving DecidableEq

/-! ## Dictionary client -/

/-- The function `requestWord`. -/
def requestWord {σ : Type} (W : World σ) (s : σ) (url : String) : Except String Response × σ :=
  W.transport s url

/-- The function `getWordInfo`. -/
def getWordInfo {σ : Type} (W : World σ) (s : σ) (word : String) : Except String WordInfo × σ :=
  let r := requestWord W s (dictionaryAPIPrefix ++ QueryEscape word)
  match r.1 with
  | .error err => (.error ("Unable to make request:" ++ err), r.2)
  | .ok response =>
    if response.StatusCode = 200 then
      match response.Body with
      | .error err => (.error ("Unable to read response:" ++ err), r.2)
      | .ok data =>
        match W.decode data with
        | .error err => (.error ("Unable to unmarshal JSON:" ++ err), r.2)
        | .ok wordInfo => (.ok wordInfo, r.2)
    else (.error "Unexpected response", r.2)

/-! ## Message loop and `main` -/

/-- The fixed reply of a failed lookup. -/
def errorMsg : String :=
  "Unable to find the word. Check the spelling."

/-- The `for update := range updates` loop of `main` over a finite feed. -/
def mainLoop {σ : Type} (W : World σ) : σ → List Update → List Event × Outcome
  | _, [] => ([], Outcome.feedClosed)
  | s, update :: updates =>
    match update.Message with
    | none => ([], Outcome.nilDereference)
    | some message =>
      let r := getWordInfo W s message.Text
      match r.1 with
      | .error err =>
        let sent := W.send r.2 message.Chat.ID errorMsg
        match sent.1 with
        | some e =>
          ([Event.lookup message.Text (.error err),
            Event.send message.Chat.ID errorMsg (some e)], Outcome.sendFailed)
        | none =>
          let rest := mainLoop W sent.2 updates
          (Event.lookup message.Text (.error err) ::
            Event.send message.Chat.ID errorMsg none :: rest.1, rest.2)
      | .ok receivedWord =>
        let wordParams := formatMessage receivedWord
        let sent := W.send r.2 message.Chat.ID wordParams
        match sent.1 with
        | some e =>
          ([Event.lookup message.Text (.ok receivedWord),
            Event.send message.Chat.ID wordParams (some e)], Outcome.sendFailed)
        | none =>
          let rest := mainLoop W sent.2 updates
          (Event.lookup message.Text (.ok receivedWord) ::
            Event.send message.Chat.ID wordParams none :: rest.1, rest.2)

/-- Go's `os.Getenv`: the value of the variable, `""` when it is not set. -/
def Getenv (env : String → Option String) (key : String) : String :=
  (env key).getD ""

/-- The exit status of the process for each end of the loop: `main` returns (0) when the
feed closes or a send fails, and an unrecovered panic exits with 2. -/
def exitStatus : Outcome → Nat
  | Outcome.feedClosed => 0
  | Outcome.sendFailed => 0
  | Outcome.nilDereference => 2

/-- The function `main`: the trace of what it does and the exit status of the process.
`log.Fatal` exits with status 1. -/
def main {σ : Type} (W : World σ) (env : String → Option String) (s : σ)
    (feed : List Update) : List Event × Nat :=
  let token := Getenv env "token"
  if token = "" then ([], 1)
  else
    let bot := W.newBotAPI s token
    match bot.1 with
    | some err => ([Event.auth token (some err)], 1)
    | none =>
      let r := mainLoop W bot.2 feed
      (Event.auth token none :: Event.getUpdates :: r.1, exitStatus r.2)

/-- The reply that answers a lookup result. -/
def replyText : Except String WordInfo → String
  | .error _ => errorMsg
  | .ok receivedWord => formatMessage receivedWord

/-- The state of the world in which each message of `msgs` is looked up, when the run
starts in `s` and answers every message: the lookup of a message moves the world, the
send of its reply moves it again, and the next message is looked up in the state the send
leaves. -/
def statesBefore {σ : Type} (W : World σ) : σ → List Message → List σ
  | _, [] => []
  | s, m :: ms =>
    s :: statesBefore W (W.send (getWordInfo W s m.Text).2 m.Chat.ID
      (replyText (getWordInfo W s m.Text).1)).2 ms

/-- A feed of two updates with the identifiers 1 and 2, the messages `xzqpl` of chat 42
and `hello` of chat 7. -/
def feedBA : List Update :=
  [{ UpdateID := 1, Message := some { Chat := { ID := 42 }, Text := "xzqpl" } },
   { UpdateID := 2, Message := some { Chat := { ID := 7 }, Text := "hello" } }]

/-- A world without state in which every lookup is answered with HTTP 404 and every
send succeeds. -/
def world404 : World Unit :=
  { newBotAPI := fun s _ => (none, s),
    transport := fun s _ => (.ok { StatusCode := 404, Body := .ok [] }, s),
    decode := fun _ => .error "unexpected end of JSON input",
    send := fun s _ _ => (none, s) }

/-- A world without state in which every lookup is answered with Scenario A and every
send fails. -/
def worldSendFails : World Unit :=
  { newBotAPI := fun s _ => (none, s),
    transport := fun s _ => (.ok { StatusCode := 200, Body := .ok [] }, s),
    decode := fun _ => .ok scenarioA,
    send := fun s _ _ => (some "Forbidden: bot was blocked by the user", s) }

/-- The message `xzqpl` of chat 42. -/
def messageB : Message :=
  { Chat := { ID := 42 }, Text := "xzqpl" }

/-- The message `hello` of chat 7. -/
def messageA : Message :=
  { Chat := { ID := 7 }, Text := "hello" }

/-! ## Helper lemmas on string concatenation -/

theorem join_nil : String.join [] = "" := rfl

theorem join_cons (s : String) (ss : List String) :
    String.join (s :: ss) = s ++ String.join ss := by
  apply String.ext
  simp [String.data_join]

theorem join_append (xs ys : List String) :
    String.join (xs ++ ys) = String.join xs ++ String.join ys := by
  apply String.ext
  simp [String.data_join]

/-- The innermost loop appends the rendering of every definition to the accumulator. -/
theorem foldl_definitions (ds : List Definition) (acc : String) :
    ds.foldl (fun wordParams d =>
        let wordParams := wordParams ++ ("Definition: " ++ d.Definition ++ "\n")
        wordParams ++ ("Example: " ++ d.Example ++ "\n")) acc
      = acc ++ String.join (ds.map renderDefinition) := by
  induction ds generalizing acc with
  | nil => simp [join_nil]
  | cons d ds ih =>
    rw [List.foldl_cons, ih]
    simp only [List.map_cons, join_cons, renderDefinition, String.append_assoc]

/-- The middle loop appends the rendering of every meaning to the accumulator. -/
theorem foldl_meanings (ms : List Meaning) (acc : String) :
    ms.foldl (fun wordParams meaning =>
        let wordParams := wordParams ++ ("Part of speech: " ++ meaning.PartOfSpeech ++ "\n")
        meaning.Definitions.foldl (fun wordParams d =>
          let wordParams := wordParams ++ ("Definition: " ++ d.Definition ++ "\n")
          wordParams ++ ("Example: " ++ d.Example ++ "\n")) wordParams) acc
      = acc ++ String.join (ms.map renderMeaning) := by
  induction ms generalizing acc with
  | nil => simp [join_nil]
  | cons m ms ih =>
    rw [List.foldl_cons, ih, foldl_definitions]
    simp only [List.map_cons, join_cons, renderMeaning, String.append_assoc]

/-- The outer loop appends the rendering of every entry to the accumulator. -/
theorem foldl_entries (w : WordInfo) (acc : String) :
    w.foldl (fun wordParams value =>
        value.Meanings.foldl (fun wordParams meaning =>
          let wordParams := wordParams ++ ("Part of speech: " ++ meaning.PartOfSpeech ++ "\n")
          meaning.Definitions.foldl (fun wordParams d =>
            let wordParams := wordParams ++ ("Definition: " ++ d.Definition ++ "\n")
            wordParams ++ ("Example: " ++ d.Example ++ "\n")) wordParams) wordParams) acc
      = acc ++ String.join (w.map renderEntry) := by
  induction w generalizing acc with
  | nil => simp [join_nil]
  | cons e w ih =>
    rw [List.foldl_cons, ih, foldl_meanings]
    simp only [List.map_cons, join_cons, renderEntry, String.append_assoc]

/-- The loops of `formatMessage` compute the rendered reply. -/
theorem formatMessage_eq (w : WordInfo) : formatMessage w = renderedReply w := by
  unfold formatMessage renderedReply
  rw [foldl_entries]
  simp

theorem formatMessage_nil : formatMessage [] = "" := rfl

theorem formatMessage_cons (e : WordEntry) (w : WordInfo) :
    formatMessage (e :: w) = renderEntry e ++ formatMessage w := by
  simp [formatMessage_eq, renderedReply, join_cons]

theorem formatMessage_append (u v : WordInfo) :
    formatMessage (u ++ v) = formatMessage u ++ formatMessage v := by
  simp [formatMessage_eq, renderedReply, join_append]

theorem append_eq_empty (a b : String) : a ++ b = "" ↔ a = "" ∧ b = "" := by
  simp [String.ext_iff]

theorem renderMeaning_ne_empty (m : Meaning) : renderMeaning m ≠ "" := by
  intro h
  have h2 := congrArg String.data h
  simp [renderMeaning, String.data_append] at h2

theorem renderEntry_eq_empty (e : WordEntry) : renderEntry e = "" ↔ e.Meanings = [] := by
  unfold renderEntry
  cases e.Meanings with
  | nil => simp [join_nil]
  | cons m ms => simp [join_cons, append_eq_empty, renderMeaning_ne_empty]

theorem formatMessage_eq_empty (w : WordInfo) :
    formatMessage w = "" ↔ ∀ e ∈ w, e.Meanings = [] := by
  induction w with
  | nil => simp [formatMessage_nil]
  | cons e w ih => simp [formatMessage_cons, append_eq_empty, renderEntry_eq_empty, ih]

/-- One iteration of the loop whose send succeeds: the lookup and the reply are recorded
and the loop goes on with the next update. -/
theorem mainLoop_cons_sent {σ : Type} (W : World σ) (s : σ) (m : Message) (us : List Update)
    (h : (W.send (getWordInfo W s m.Text).2 m.Chat.ID
      (replyText (getWordInfo W s m.Text).1)).1 = none) :
    mainLoop W s (Update.ofMessage m :: us) =
      (Event.lookup m.Text (getWordInfo W s m.Text).1 ::
        Event.send m.Chat.ID (replyText (getWordInfo W s m.Text).1) none ::
        (mainLoop W (W.send (getWordInfo W s m.Text).2 m.Chat.ID
          (replyText (getWordInfo W s m.Text).1)).2 us).1,
       (mainLoop W (W.send (getWordInfo W s m.Text).2 m.Chat.ID
          (replyText (getWordInfo W s m.Text).1)).2 us).2) := by
  simp only [mainLoop, Update.ofMessage]
  cases hr : (getWordInfo W s m.Text).1 with
  | error err =>
    rw [hr] at h
    simp only [replyText] at h ⊢
    simp only [h]
  | ok d =>
    rw [hr] at h
    simp only [replyText] at h ⊢
    simp only [h]

/-- One iteration of the loop whose send fails: the lookup and the failed send are
recorded and the loop ends. -/
theorem mainLoop_cons_failed {σ : Type} (W : World σ) (s : σ) (m : Message) (us : List Update)
    (e : String)
    (h : (W.send (getWordInfo W s m.Text).2 m.Chat.ID
      (replyText (getWordInfo W s m.Text).1)).1 = some e) :
    mainLoop W s (Update.ofMessage m :: us) =
      ([Event.lookup m.Text (getWordInfo W s m.Text).1,
        Event.send m.Chat.ID (replyText (getWordInfo W s m.Text).1) (some e)],
       Outcome.sendFailed) := by
  simp only [mainLoop, Update.ofMessage]
  cases hr : (getWordInfo W s m.Text).1 with
  | error err =>
    rw [hr] at h
    simp only [replyText] at h ⊢
    simp only [h]
  | ok d =>
    rw [hr] at h
    simp only [replyText] at h ⊢
    simp only [h]

/-- The loop does not read the identifier of an update. -/
theorem mainLoop_cons_id {σ : Type} (W : World σ) (s : σ) (n : Int) (m : Message)
    (us : List Update) :
    mainLoop W s ({ UpdateID := n, Message := some m } :: us)
      = mainLoop W s (Update.ofMessage m :: us) := by
  simp only [mainLoop, Update.ofMessage]

/-- There is one state per message. -/
theorem statesBefore_length {σ : Type} (W : World σ) (msgs : List Message) (s : σ) :
    (statesBefore W s msgs).length = msgs.length := by
  induction msgs generalizing s with
  | nil => rfl
  | cons m msgs ih => simp [statesBefore, ih]

/-- An update without a message ends the loop at once. -/
theorem mainLoop_cons_nil {σ : Type} (W : World σ) (s : σ) (n : Int) (us : List Update) :
    mainLoop W s ({ UpdateID := n, Message := none } :: us) = ([], Outcome.nilDereference) := by
  simp only [mainLoop]

/-! ## Helper lemmas on lines -/

theorem unlines_cons (l : String) (ls : List String) :
    unlines (l :: ls) = l ++ "\n" ++ unlines ls := by
  simp [unlines, join_cons]

theorem unlines_append (xs ys : List String) :
    unlines (xs ++ ys) = unlines xs ++ unlines ys := by
  simp [unlines, join_append]

theorem unlines_flatMap {α : Type} (f : α → List String) (xs : List α) :
    unlines (xs.flatMap f) = String.join (xs.map fun x => unlines (f x)) := by
  induction xs with
  | nil => rfl
  | cons x xs ih => rw [List.flatMap_cons, unlines_append, ih, List.map_cons, join_cons]

theorem renderDefinition_eq (d : Definition) :
    renderDefinition d = unlines (definitionLines d) := by
  simp [renderDefinition, definitionLines, unlines, join_cons, join_nil]

theorem renderMeaning_eq (m : Meaning) : renderMeaning m = unlines (meaningLines m) := by
  have hd : renderDefinition = fun d => unlines (definitionLines d) :=
    funext renderDefinition_eq
  rw [meaningLines, unlines_cons, unlines_flatMap, renderMeaning, hd]

theorem renderedReply_eq (w : WordInfo) : renderedReply w = unlines (expectedLines w) := by
  rw [expectedLines, unlines_flatMap, renderedReply]
  congr 1
  apply List.map_congr_left
  intro e _
  have hm : renderMeaning = fun m => unlines (meaningLines m) :=
    funext renderMeaning_eq
  rw [unlines_flatMap, renderEntry, hm]

/-- Reading a line without a newline up to its terminator yields that line. -/
theorem splitLinesAux_line (l : List Char) (cur rest : List Char) (h : '\n' ∉ l) :
    splitLinesAux cur (l ++ '\n' :: rest) = (cur ++ l) :: splitLinesAux [] rest := by
  induction l generalizing cur with
  | nil => simp [splitLinesAux]
  | cons c l ih =>
    have hc : c ≠ '\n' := fun hc => h (by simp [hc])
    have hl : '\n' ∉ l := fun hl => h (by simp [hl])
    rw [List.cons_append, splitLinesAux, if_neg hc, ih _ hl]
    simp

/-- Splitting the text made of newline-free lines gives the lines back. -/
theorem splitLines_unlines (ls : List String) (h : ∀ l ∈ ls, NoNewline l) :
    splitLines (unlines ls) = ls := by
  induction ls with
  | nil => rfl
  | cons l ls ih =>
    have hl : '\n' ∉ l.data := h l (by simp)
    have hdata : (unlines (l :: ls)).data = l.data ++ '\n' :: (unlines ls).data := by
      rw [unlines_cons]
      simp [String.data_append]
    have ih2 := ih (fun x hx => h x (by simp [hx]))
    unfold splitLines at ih2 ⊢
    rw [hdata, splitLinesAux_line _ _ _ hl, List.map_cons, ih2]
    simp

theorem expectedLines_noNewline (w : WordInfo) (h : LineFree w) :
    ∀ l ∈ expectedLines w, NoNewline l := by
  intro l hl
  simp only [expectedLines, List.mem_flatMap] at hl
  obtain ⟨e, he, m, hm, hl⟩ := hl
  obtain ⟨hpos, hdefs⟩ := h e he m hm
  simp only [meaningLines, List.mem_cons, List.mem_flatMap] at hl
  rcases hl with hl | ⟨d, hd, hl⟩
  · subst hl
    simp only [NoNewline, String.data_append, List.mem_append, not_or]
    exact ⟨by decide, hpos⟩
  · obtain ⟨hdef, hex⟩ := hdefs d hd
    simp only [definitionLines, List.mem_cons, List.mem_singleton, List.not_mem_nil,
      or_false] at hl
    rcases hl with hl | hl
    · subst hl
      simp only [NoNewline, String.data_append, List.mem_append, not_or]
      exact ⟨by decide, hdef⟩
    · subst hl
      simp only [NoNewline, String.data_append, List.mem_append, not_or]
      exact ⟨by decide, hex⟩

theorem splitLines_formatMessage (w : WordInfo) (h : LineFree w) :
    splitLines (formatMessage w) = expectedLines w := by
  rw [formatMessage_eq, renderedReply_eq, splitLines_unlines _ (expectedLines_noNewline w h)]

/-- How many lines of a meaning begin with each of the three labels. -/
theorem countP_meaningLines (m : Meaning) :
    (meaningLines m).countP (beginsWith "Part of speech:") = 1 ∧
    (meaningLines m).countP (beginsWith "Definition:") = m.Definitions.length ∧
    (meaningLines m).countP (beginsWith "Example:") = m.Definitions.length := by
  have hp : ∀ x : String, beginsWith "Part of speech:" ("Part of speech: " ++ x) = true ∧
      beginsWith "Definition:" ("Part of speech: " ++ x) = false ∧
      beginsWith "Example:" ("Part of speech: " ++ x) = false :=
    fun x => ⟨rfl, rfl, rfl⟩
  have hd : ∀ x : String, beginsWith "Part of speech:" ("Definition: " ++ x) = false ∧
      beginsWith "Definition:" ("Definition: " ++ x) = true ∧
      beginsWith "Example:" ("Definition: " ++ x) = false :=
    fun x => ⟨rfl, rfl, rfl⟩
  have he : ∀ x : String, beginsWith "Part of speech:" ("Example: " ++ x) = false ∧
      beginsWith "Definition:" ("Example: " ++ x) = false ∧
      beginsWith "Example:" ("Example: " ++ x) = true :=
    fun x => ⟨rfl, rfl, rfl⟩
  have hds : ∀ ds : List Definition,
      (ds.flatMap definitionLines).countP (beginsWith "Part of speech:") = 0 ∧
      (ds.flatMap definitionLines).countP (beginsWith "Definition:") = ds.length ∧
      (ds.flatMap definitionLines).countP (beginsWith "Example:") = ds.length := by
    intro ds
    induction ds with
    | nil => simp
    | cons d ds ih =>
      obtain ⟨i1, i2, i3⟩ := ih
      simp only [List.flatMap_cons, List.countP_append, definitionLines, List.countP_cons,
        List.countP_nil, (hd d.Definition).1, (hd d.Definition).2.1, (hd d.Definition).2.2,
        (he d.Example).1, (he d.Example).2.1, (he d.Example).2.2, i1, i2, i3, List.length_cons]
      simp
      omega
  obtain ⟨i1, i2, i3⟩ := hds m.Definitions
  simp only [meaningLines, List.countP_cons, (hp m.PartOfSpeech).1, (hp m.PartOfSpeech).2.1,
    (hp m.PartOfSpeech).2.2, i1, i2, i3]
  simp

/-- How many expected lines begin with each of the three labels. -/
theorem countP_expectedLines (w : WordInfo) :
    (expectedLines w).countP (beginsWith "Part of speech:") = totalMeanings w ∧
    (expectedLines w).countP (beginsWith "Definition:") = totalDefinitions w ∧
    (expectedLines w).countP (beginsWith "Example:") = totalDefinitions w := by
  have hms : ∀ ms : List Meaning,
      (ms.flatMap meaningLines).countP (beginsWith "Part of speech:") = ms.length ∧
      (ms.flatMap meaningLines).countP (beginsWith "Definition:")
        = (ms.map fun m => m.Definitions.length).sum ∧
      (ms.flatMap meaningLines).countP (beginsWith "Example:")
        = (ms.map fun m => m.Definitions.length).sum := by
    intro ms
    induction ms with
    | nil => simp
    | cons m ms ih =>
      obtain ⟨i1, i2, i3⟩ := ih
      obtain ⟨c1, c2, c3⟩ := countP_meaningLines m
      simp only [List.flatMap_cons, List.countP_append, c1, c2, c3, i1, i2, i3,
        List.length_cons, List.map_cons, List.sum_cons]
      simp
      omega
  induction w with
  | nil => simp [expectedLines, totalMeanings, totalDefinitions]
  | cons e w ih =>
    obtain ⟨i1, i2, i3⟩ := ih
    obtain ⟨c1, c2, c3⟩ := hms e.Meanings
    simp only [expectedLines] at i1 i2 i3
    simp only [expectedLines, totalMeanings, totalDefinitions, List.flatMap_cons,
      List.countP_append, c1, c2, c3, i1, i2, i3, List.map_cons, List.sum_cons]
    simp [totalMeanings, totalDefinitions]

/-! ## Theorems on the formatter -/

/-- C1: for every decoded sequence, `formatMessage` returns the concatenation, over every
entry and every meaning in order, of the `Part of speech:` line followed by the
`Definition:` and `Example:` lines of every definition in order; on Scenario A this is
`"Part of speech: exclamation\nDefinition: used as a greeting\nExample: hello there!\n"`. -/
theorem formatMessage_concatenation :
    (∀ w : WordInfo, formatMessage w = String.join (w.map fun e =>
        String.join (e.Meanings.map fun m =>
          "Part of speech: " ++ m.PartOfSpeech ++ "\n" ++
            String.join (m.Definitions.map fun d =>
              "Definition: " ++ d.Definition ++ "\n" ++ ("Example: " ++ d.Example ++ "\n"))))) ∧
    formatMessage scenarioA
      = "Part of speech: exclamation\nDefinition: used as a greeting\nExample: hello there!\n" :=
  ⟨fun w => formatMessage_eq w, by decide⟩

/-- C4 (as stated, refuted): the sequence of one entry whose only meaning `noun` has
zero definitions satisfies the premise and is rendered to `"Part of speech: noun\n"`, not
to the empty string. -/
theorem formatMessage_bare_meaning_nonempty :
    (∀ e ∈ bareMeaningWord, ∀ m ∈ e.Meanings, m.Definitions = []) ∧
    formatMessage bareMeaningWord = "Part of speech: noun\n" ∧
    formatMessage bareMeaningWord ≠ "" := by
  refine ⟨?_, ?_, ?_⟩
  · simp [bareMeaningWord]
  · decide
  · decide

/-- C4 (amended): when every meaning has zero definitions, `formatMessage` returns the
concatenation of the `Part of speech:` lines of all meanings in order, one line per
meaning and no other line, so the reply is empty exactly when there is no meaning. -/
theorem formatMessage_no_definitions (w : WordInfo)
    (h : ∀ e ∈ w, ∀ m ∈ e.Meanings, m.Definitions = []) :
    formatMessage w = String.join (w.map fun e =>
        String.join (e.Meanings.map fun m => "Part of speech: " ++ m.PartOfSpeech ++ "\n")) ∧
    (formatMessage w = "" ↔ ∀ e ∈ w, e.Meanings = []) := by
  refine ⟨?_, formatMessage_eq_empty w⟩
  rw [formatMessage_eq, renderedReply]
  congr 1
  apply List.map_congr_left
  intro e he
  unfold renderEntry
  congr 1
  apply List.map_congr_left
  intro m hm
  simp [renderMeaning, h e he m hm, join_nil]

theorem formatMessage_no_definitions_witness :
    (∀ e ∈ bareMeaningWord, ∀ m ∈ e.Meanings, m.Definitions = []) ∧
    (formatMessage bareMeaningWord = String.join (bareMeaningWord.map fun e =>
        String.join (e.Meanings.map fun m => "Part of speech: " ++ m.PartOfSpeech ++ "\n")) ∧
     (formatMessage bareMeaningWord = "" ↔ ∀ e ∈ bareMeaningWord, e.Meanings = [])) :=
  ⟨by simp [bareMeaningWord], formatMessage_no_definitions bareMeaningWord (by simp [bareMeaningWord])⟩

/-- C5: `formatMessage` returns the empty string for the empty sequence and for every
sequence all of whose entries have zero meanings, and inserting an entry with zero
meanings anywhere in a sequence does not change its output. -/
theorem formatMessage_no_meanings :
    formatMessage [] = "" ∧
    (∀ w : WordInfo, (∀ e ∈ w, e.Meanings = []) → formatMessage w = "") ∧
    (∀ (u v : WordInfo) (e : WordEntry), e.Meanings = [] →
      formatMessage (u ++ e :: v) = formatMessage (u ++ v)) := by
  refine ⟨rfl, fun w h => (formatMessage_eq_empty w).2 h, fun u v e he => ?_⟩
  rw [formatMessage_append, formatMessage_append, formatMessage_cons,
    (renderEntry_eq_empty e).2 he, String.empty_append]

theorem formatMessage_no_meanings_witness :
    formatMessage ([] ++ ({ Word := "w", Phonetics := [], Meanings := [] } : WordEntry)
      :: scenarioA) = formatMessage ([] ++ scenarioA) :=
  formatMessage_no_meanings.2.2 [] scenarioA { Word := "w", Phonetics := [], Meanings := [] } rfl

/-- C6 (as stated, refuted): the sequence of one meaning with the one definition
`"a\nDefinition: b"` is rendered to two lines that begin with `Definition:`, although it
has one definition. -/
theorem countLines_newline_definition :
    splitLines (formatMessage newlineWord)
      = ["Part of speech: noun", "Definition: a", "Definition: b", "Example: "] ∧
    countLines "Definition:" (formatMessage newlineWord) = 2 ∧
    totalDefinitions newlineWord = 1 ∧
    countLines "Definition:" (formatMessage newlineWord) ≠ totalDefinitions newlineWord := by
  refine ⟨?_, ?_, ?_, ?_⟩ <;> decide

/-- C6 (amended): for a decoded sequence whose parts of speech, definitions and examples
hold no newline character, the lines of the output of `formatMessage` are, in input
order, the `Part of speech:` line of each meaning followed by the pair of the
`Definition:` line and the `Example:` line of each of its definitions; as many lines begin
with `Part of speech:` as there are meanings, and as many with `Definition:` and with
`Example:` as there are definitions. -/
theorem formatMessage_lines (w : WordInfo) (h : LineFree w) :
    splitLines (formatMessage w) =
      (w.flatMap fun e => e.Meanings.flatMap fun m =>
        ("Part of speech: " ++ m.PartOfSpeech) ::
          m.Definitions.flatMap fun d =>
            ["Definition: " ++ d.Definition, "Example: " ++ d.Example]) ∧
    countLines "Part of speech:" (formatMessage w) = totalMeanings w ∧
    countLines "Definition:" (formatMessage w) = totalDefinitions w ∧
    countLines "Example:" (formatMessage w) = totalDefinitions w := by
  have hs := splitLines_formatMessage w h
  refine ⟨hs, ?_⟩
  unfold countLines
  rw [hs]
  exact countP_expectedLines w

theorem formatMessage_lines_witness :
    LineFree scenarioA ∧
    (splitLines (formatMessage scenarioA) =
      (scenarioA.flatMap fun e => e.Meanings.flatMap fun m =>
        ("Part of speech: " ++ m.PartOfSpeech) ::
          m.Definitions.flatMap fun d =>
            ["Definition: " ++ d.Definition, "Example: " ++ d.Example]) ∧
    countLines "Part of speech:" (formatMessage scenarioA) = totalMeanings scenarioA ∧
    countLines "Definition:" (formatMessage scenarioA) = totalDefinitions scenarioA ∧
    countLines "Example:" (formatMessage scenarioA) = totalDefinitions scenarioA) :=
  ⟨by decide, formatMessage_lines scenarioA (by decide)⟩

/-! ## Theorems on the dictionary client -/

/-- C7 (the code at a term with a space): the URL requested for `ice cream` ends in
`ice+cream`, not in the path-segment encoding `ice%20cream`. -/
theorem wordURL_space :
    wordURL "ice cream" = "https://api.dictionaryapi.dev/api/v2/entries/en/ice+cream" ∧
    wordURL "ice cream" ≠ "https://api.dictionaryapi.dev/api/v2/entries/en/ice%20cream" := by
  decide


/-- C3: `getWordInfo` returns the decoded sequence `d` if and only if the request
succeeded, the status code is 200, the body was read and the decoder accepts the body
with result `d`; in every other case it returns an error and no value. -/
theorem getWordInfo_ok_iff {σ : Type} (W : World σ) (s : σ) (word : String) :
    (∀ d : WordInfo, (getWordInfo W s word).1 = .ok d ↔
      ∃ response data, (requestWord W s (wordURL word)).1 = .ok response ∧
        response.StatusCode = 200 ∧ response.Body = .ok data ∧ W.decode data = .ok d) ∧
    ((¬ ∃ response data d, (requestWord W s (wordURL word)).1 = .ok response ∧
        response.StatusCode = 200 ∧ response.Body = .ok data ∧ W.decode data = .ok d) →
      ∃ err, (getWordInfo W s word).1 = .error err) := by
  have key : ∀ d : WordInfo, (getWordInfo W s word).1 = .ok d ↔
      ∃ response data, (requestWord W s (wordURL word)).1 = .ok response ∧
        response.StatusCode = 200 ∧ response.Body = .ok data ∧ W.decode data = .ok d := by
    intro d
    simp only [getWordInfo, wordURL]
    cases ht : (requestWord W s (dictionaryAPIPrefix ++ QueryEscape word)).1 with
    | error err => simp
    | ok response =>
      by_cases hc : response.StatusCode = 200
      · cases hb : response.Body with
        | error err => simp [hc, hb]
        | ok data =>
          cases hd : W.decode data with
          | error err =>
            simp only [hc, hb, hd, if_true]
            constructor
            · intro h; cases h
            · rintro ⟨r, dat, hr, -, hbody, hdec⟩
              cases hr
              rw [hb] at hbody
              cases hbody
              rw [hd] at hdec
              cases hdec
          | ok wordInfo =>
            simp only [hc, hb, hd, if_true]
            constructor
            · intro h
              cases h
              exact ⟨response, data, rfl, hc, hb, hd⟩
            · rintro ⟨r, dat, hr, -, hbody, hdec⟩
              cases hr
              rw [hb] at hbody
              cases hbody
              rw [hd] at hdec
              cases hdec
              rfl
      · simp only [hc, if_false]
        constructor
        · intro h; cases h
        · rintro ⟨r, dat, hr, hcode, -, -⟩
          cases hr
          exact absurd hcode hc
  refine ⟨key, fun hno => ?_⟩
  cases hres : (getWordInfo W s word).1 with
  | error err => exact ⟨err, rfl⟩
  | ok d =>
    obtain ⟨response, data, h⟩ := (key d).1 hres
    exact absurd ⟨response, data, d, h⟩ hno

theorem getWordInfo_ok_iff_witness :
    (¬ ∃ response data d, (requestWord world404 () (wordURL "xzqpl")).1 = .ok response ∧
        response.StatusCode = 200 ∧ response.Body = .ok data ∧ world404.decode data = .ok d) ∧
    ∃ err, (getWordInfo world404 () "xzqpl").1 = .error err :=
  have h : ¬ ∃ response data d, (requestWord world404 () (wordURL "xzqpl")).1 = .ok response ∧
      response.StatusCode = 200 ∧ response.Body = .ok data ∧ world404.decode data = .ok d := by
    rintro ⟨response, data, d, hr, hc, -⟩
    cases hr
    exact absurd hc (by decide)
  ⟨h, (getWordInfo_ok_iff world404 () "xzqpl").2 h⟩

/-! ## Theorems on the message loop and `main` -/

/-- C2: for every finite feed of updates that each carry a message, whatever their
identifiers, in whose run no send fails, the loop runs to the end of the feed and does, for
each message in arrival order, exactly one lookup of the message text followed by exactly
one reply to the chat of that message; the lookup is made in the state the previous reply
left, and the reply text is the fixed error message when `getWordInfo` failed and
`formatMessage` of the decoded result when it succeeded. A failed lookup does not stop
the loop. -/
theorem mainLoop_replies {σ : Type} (W : World σ) (msgs : List Message) (us : List Update)
    (s : σ)
    (hmsgs : us.map (fun u => u.Message) = msgs.map some)
    (hsend : ∀ (chatID : Int) (text err : String),
      Event.send chatID text (some err) ∉ (mainLoop W s us).1) :
    mainLoop W s us =
      ((List.zip msgs (statesBefore W s msgs)).flatMap (fun p =>
          [Event.lookup p.1.Text (getWordInfo W p.2 p.1.Text).1,
           Event.send p.1.Chat.ID (replyText (getWordInfo W p.2 p.1.Text).1) none]),
       Outcome.feedClosed) ∧
    (statesBefore W s msgs).length = msgs.length ∧
    (∀ err, replyText (.error err) = "Unable to find the word. Check the spelling.") ∧
    (∀ d, replyText (.ok d) = formatMessage d) := by
  refine ⟨?_, statesBefore_length W msgs s, fun _ => rfl, fun _ => rfl⟩
  · induction msgs generalizing us s with
    | nil =>
      cases us with
      | nil => rfl
      | cons u us => simp at hmsgs
    | cons m msgs ih =>
      cases us with
      | nil => simp at hmsgs
      | cons u us =>
        obtain ⟨n, msg⟩ := u
        simp only [List.map_cons, List.cons.injEq] at hmsgs
        obtain ⟨hm, hrest⟩ := hmsgs
        subst hm
        rw [mainLoop_cons_id] at hsend ⊢
        cases hs : (W.send (getWordInfo W s m.Text).2 m.Chat.ID
            (replyText (getWordInfo W s m.Text).1)).1 with
        | some e =>
          rw [mainLoop_cons_failed W s m us e hs] at hsend
          exact absurd (by simp) (hsend m.Chat.ID (replyText (getWordInfo W s m.Text).1) e)
        | none =>
          rw [mainLoop_cons_sent W s m us hs] at hsend ⊢
          have hsend2 : ∀ (chatID : Int) (text err : String),
              Event.send chatID text (some err) ∉
                (mainLoop W (W.send (getWordInfo W s m.Text).2 m.Chat.ID
                  (replyText (getWordInfo W s m.Text).1)).2 us).1 :=
            fun c t e hin => hsend c t e (by simp [hin])
          rw [ih us _ hrest hsend2]
          simp [statesBefore]

theorem mainLoop_replies_witness :
    feedBA.map (fun u => u.Message) = [messageB, messageA].map some ∧
    (∀ (chatID : Int) (text err : String),
      Event.send chatID text (some err) ∉ (mainLoop world404 () feedBA).1) ∧
    (mainLoop world404 () feedBA =
      ((List.zip [messageB, messageA] (statesBefore world404 () [messageB, messageA])).flatMap
        (fun p =>
          [Event.lookup p.1.Text (getWordInfo world404 p.2 p.1.Text).1,
           Event.send p.1.Chat.ID (replyText (getWordInfo world404 p.2 p.1.Text).1) none]),
       Outcome.feedClosed) ∧
    (statesBefore world404 () [messageB, messageA]).length = [messageB, messageA].length ∧
    (∀ err, replyText (.error err) = "Unable to find the word. Check the spelling.") ∧
    (∀ d, replyText (.ok d) = formatMessage d)) :=
  have hsend : ∀ (chatID : Int) (text err : String),
      Event.send chatID text (some err) ∉ (mainLoop world404 () feedBA).1 := by
    intro chatID text err hin
    have ht : (mainLoop world404 () feedBA).1 =
        [Event.lookup "xzqpl" (.error "Unexpected response"),
         Event.send 42 errorMsg none,
         Event.lookup "hello" (.error "Unexpected response"),
         Event.send 7 errorMsg none] := rfl
    rw [ht] at hin
    simp at hin
  ⟨rfl, hsend, mainLoop_replies world404 [messageB, messageA] feedBA () rfl hsend⟩

/-- C8: a failed send is the last thing the loop does: whatever the feed holds, nothing
follows a failed send in the trace, no lookup and no reply, and the loop has ended. -/
theorem mainLoop_send_failure_last {σ : Type} (W : World σ) (us : List Update) (s : σ)
    (before after : List Event) (chatID : Int) (text err : String)
    (h : (mainLoop W s us).1 = before ++ Event.send chatID text (some err) :: after) :
    after = [] ∧ (mainLoop W s us).2 = Outcome.sendFailed := by
  induction us generalizing s before with
  | nil => simp [mainLoop] at h
  | cons u us ih =>
    obtain ⟨n, msg⟩ := u
    cases msg with
    | none => simp [mainLoop_cons_nil] at h
    | some m =>
      have hstep : mainLoop W s ({ UpdateID := n, Message := some m } :: us)
          = mainLoop W s (Update.ofMessage m :: us) := by
        simp only [mainLoop, Update.ofMessage]
      rw [hstep] at h ⊢
      cases hs : (W.send (getWordInfo W s m.Text).2 m.Chat.ID
          (replyText (getWordInfo W s m.Text).1)).1 with
      | some e =>
        rw [mainLoop_cons_failed W s m us e hs] at h ⊢
        refine ⟨?_, rfl⟩
        match before, h with
        | [], h => simp at h
        | [_], h =>
          simp at h
          exact h.2.2
        | _ :: _ :: [], h => simp at h
        | _ :: _ :: _ :: _, h => simp at h
      | none =>
        rw [mainLoop_cons_sent W s m us hs] at h ⊢
        match before, h with
        | [], h => simp at h
        | [_], h => simp at h
        | _ :: _ :: rest, h =>
          simp only [List.cons_append, List.cons.injEq] at h
          exact ih _ rest h.2.2

theorem mainLoop_send_failure_last_witness :
    (mainLoop worldSendFails () [Update.ofMessage messageA, Update.ofMessage messageB]).1
      = [Event.lookup "hello" (.ok scenarioA)] ++
          Event.send 7 (formatMessage scenarioA)
            (some "Forbidden: bot was blocked by the user") :: [] ∧
    ([] = ([] : List Event) ∧
      (mainLoop worldSendFails () [Update.ofMessage messageA, Update.ofMessage messageB]).2
        = Outcome.sendFailed) :=
  ⟨rfl, mainLoop_send_failure_last worldSendFails
    [Update.ofMessage messageA, Update.ofMessage messageB] ()
    [Event.lookup "hello" (.ok scenarioA)] [] 7 (formatMessage scenarioA)
    "Forbidden: bot was blocked by the user" rfl⟩

/-- C9: when the variable `token` is absent or empty, `main` does nothing to the outside
world (no authentication, no update feed, no lookup, no reply) and the process exits with
status 1. -/
theorem main_without_token {σ : Type} (W : World σ) (env : String → Option String) (s : σ)
    (feed : List Update) (h : env "token" = none ∨ env "token" = some "") :
    main W env s feed = ([], 1) ∧ (main W env s feed).2 ≠ 0 := by
  have ht : Getenv env "token" = "" := by
    rcases h with h | h <;> simp [Getenv, h]
  simp [main, ht]

theorem main_without_token_witness :
    ((fun _ => none : String → Option String) "token" = none ∨
      (fun _ => none : String → Option String) "token" = some "") ∧
    (main world404 (fun _ => none) () [Update.ofMessage messageA] = ([], 1) ∧
      (main world404 (fun _ => none) () [Update.ofMessage messageA]).2 ≠ 0) :=
  ⟨Or.inl rfl, main_without_token world404 (fun _ => none) () [Update.ofMessage messageA]
    (Or.inl rfl)⟩

/-- C10 (the code at an update without a message): the loop ends at once with a nil
dereference, before any lookup or reply, and the process exits with status 2, whatever
follows in the feed. -/
theorem mainLoop_nil_message {σ : Type} (W : World σ) (s : σ) (n : Int) (us : List Update) :
    mainLoop W s ({ UpdateID := n, Message := none } :: us) = ([], Outcome.nilDereference) ∧
    (main W (fun _ => some "t") s ({ UpdateID := n, Message := none } :: us)).2
      = (if (W.newBotAPI s "t").1 = none then 2 else 1) := by
  refine ⟨mainLoop_cons_nil W s n us, ?_⟩
  simp only [main, Getenv, Option.getD_some]
  cases hb : (W.newBotAPI s "t").1 with
  | none => simp [mainLoop_cons_nil, exitStatus]
  | some e => simp

end LangBot
